import Mathlib

/-!
Shallow embedding of the DLSWIDOW-SCRAPER repository (a Selenium-based
Twitter/X scraper written in Python) and proofs about its specification.

The embedding works over `List Char` / `String` with exact rational
arithmetic in place of IEEE floats.  Text is modelled over the ASCII
range: Python's `re` module and `str` methods are unicode-aware, but all
inputs the claims mention are ASCII, and the theorems that depend on the
restriction carry it as an explicit hypothesis.
-/

/- ## Python / text primitives (src/src/utils/helpers.py) -/

/-- Characters matched by Python's `\s` and stripped by `str.strip()`,
restricted to the ASCII range: space, `\t`, `\n`, `\v`, `\f`, `\r` and the
separator controls `\x1c`-`\x1f`. -/
def isPySpace (c : Char) : Bool :=
  c = ' ' || c = '\t' || c = '\n' || c = '\r' || c = '\x0b' || c = '\x0c' ||
  c = '\x1c' || c = '\x1d' || c = '\x1e' || c = '\x1f'

/-- Model of Python `str.strip()` (whitespace strip from both ends). -/
def pyStripL (l : List Char) : List Char :=
  ((l.dropWhile isPySpace).reverse.dropWhile isPySpace).reverse

/-- Model of Python `str.strip()` on `String`. -/
def pyStrip (s : String) : String := ⟨pyStripL s.data⟩

/-- Worker for `collapseWs`: the Boolean records whether the previous
character belonged to a whitespace run that has already emitted its
single replacement space. -/
def collapseWsAux : Bool → List Char → List Char
  | _, [] => []
  | prevSpace, c :: cs =>
    if isPySpace c then
      if prevSpace then collapseWsAux true cs
      else ' ' :: collapseWsAux true cs
    else c :: collapseWsAux false cs

/-- Model of `re.sub(r'\s+', ' ', text)`: every maximal run of whitespace
characters is replaced by a single space. -/
def collapseWs (l : List Char) : List Char := collapseWsAux false l

/-- One step of HTML character-reference matching: given the text after a
`&`, return the replacement character and how many characters the
reference consumed.  Modelled from the Python stdlib `html.unescape`
semantics for the core named references `amp`, `lt`, `gt`, `quot`, which
HTML5 (and hence `html.unescape`) recognizes with or without the trailing
semicolon. -/
def entMatch : List Char → Option (Char × Nat)
  | 'a' :: 'm' :: 'p' :: ';' :: _ => some ('&', 4)
  | 'a' :: 'm' :: 'p' :: _ => some ('&', 3)
  | 'l' :: 't' :: ';' :: _ => some ('<', 3)
  | 'l' :: 't' :: _ => some ('<', 2)
  | 'g' :: 't' :: ';' :: _ => some ('>', 3)
  | 'g' :: 't' :: _ => some ('>', 2)
  | 'q' :: 'u' :: 'o' :: 't' :: ';' :: _ => some ('"', 5)
  | 'q' :: 'u' :: 'o' :: 't' :: _ => some ('"', 4)
  | _ => none

/-- Worker for `htmlUnescapeL`.  Every step consumes at least one input
character, so running it with the input length as fuel computes the scan
to completion; the fuel only makes the recursion structural. -/
def unescapeGo : Nat → List Char → List Char
  | 0, l => l
  | _ + 1, [] => []
  | fuel + 1, c :: rest =>
    if c = '&' then
      match entMatch rest with
      | some (r, n) => r :: unescapeGo fuel (rest.drop n)
      | none => '&' :: unescapeGo fuel rest
    else c :: unescapeGo fuel rest

/-- Model of Python `html.unescape`: scan left to right, replacing each
recognized character reference after a `&`; the scan continues after the
replacement, so the output of one pass can contain references again. -/
def htmlUnescapeL (l : List Char) : List Char := unescapeGo l.length l

/-- Modelled from the Python stdlib: `unicodedata.normalize('NFKC', ·)`.
The development restricts text to the ASCII range, on which NFKC
normalization is the identity. -/
def nfkcAscii (l : List Char) : List Char := l

/-- `clean_text` from `src/src/utils/helpers.py`: empty input yields
empty output, otherwise HTML-entity unescape, NFKC normalization,
whitespace-run collapse, strip. -/
def cleanTextL (l : List Char) : List Char :=
  if l = [] then []
  else pyStripL (collapseWs (nfkcAscii (htmlUnescapeL l)))

/-- `clean_text` on `String`. -/
def clean_text (s : String) : String := ⟨cleanTextL s.data⟩

example : clean_text "  a \t  b " = "a b" := by decide
example : clean_text "&amp;amp;" = "&amp;" := by decide
example : clean_text (clean_text "&amp;amp;") = "&" := by decide

/- ## Python number parsing -/

/-- Value of a decimal digit string (most significant first). -/
def digitsToNat (l : List Char) : Nat :=
  l.foldl (fun acc c => 10 * acc + (c.toNat - '0'.toNat)) 0

/-- Result of Python `float(str)`.  A finite value is kept as an exact
pair `num / den` with `den` a positive power of ten: the claims under
study do not depend on IEEE rounding, so the model uses exact decimal
arithmetic. -/
inductive PyFloat where
  | finite (num : Int) (den : Nat)
  | inf
  | negInf
  | nan
deriving DecidableEq

/-- Python exception classes relevant to the embedded code. -/
inductive PyErr where
  | valueError
  | overflowError
deriving DecidableEq

instance {ε α : Type} [DecidableEq ε] [DecidableEq α] : DecidableEq (Except ε α) := fun
  | .error e, .error f =>
    if h : e = f then isTrue (by rw [h]) else isFalse (by intro hh; cases hh; exact h rfl)
  | .error _, .ok _ => isFalse (by intro h; cases h)
  | .ok _, .error _ => isFalse (by intro h; cases h)
  | .ok a, .ok b =>
    if h : a = b then isTrue (by rw [h]) else isFalse (by intro hh; cases hh; exact h rfl)

/-- Build a finite float value `sign * n / d * 10 ^ e`. -/
def mkPyFinite (neg : Bool) (n d : Nat) (e : Int) : PyFloat :=
  let sn : Int := if neg then -(n : Int) else (n : Int)
  if 0 ≤ e then .finite (sn * 10 ^ e.toNat) d
  else .finite sn (d * 10 ^ (-e).toNat)

/-- Split an optional leading sign off a numeric literal, returning
whether the value is negated and the rest. -/
def splitSign (l : List Char) : Bool × List Char :=
  match l with
  | [] => (false, [])
  | c :: r => if c = '-' then (true, r) else if c = '+' then (false, r) else (false, l)

/-- Parse `digits [. digits]` (at least one digit overall), returning
numerator, denominator and the unconsumed rest. -/
def parseMantissa (l : List Char) : Option (Nat × Nat × List Char) :=
  let ip := l.takeWhile Char.isDigit
  let r1 := l.dropWhile Char.isDigit
  match r1 with
  | '.' :: r2 =>
    let fp := r2.takeWhile Char.isDigit
    let r3 := r2.dropWhile Char.isDigit
    if ip.isEmpty && fp.isEmpty then none
    else some (digitsToNat (ip ++ fp), 10 ^ fp.length, r3)
  | _ => if ip.isEmpty then none else some (digitsToNat ip, 1, r1)

/-- Parse an optional exponent part `[eE][+-]?digits`; absence yields
exponent `0`. -/
def parseExponent (l : List Char) : Option (Int × List Char) :=
  match l with
  | c :: rest =>
    if c = 'e' || c = 'E' then
      let (neg, r) := splitSign rest
      let ds := r.takeWhile Char.isDigit
      if ds.isEmpty then none
      else some (if neg then -(digitsToNat ds : Int) else (digitsToNat ds : Int),
                 r.dropWhile Char.isDigit)
    else some (0, l)
  | [] => some (0, [])

/-- Core of the `float(str)` model, applied after whitespace stripping:
optional sign, then `inf`/`infinity`/`nan` (case-insensitive) or a
decimal literal with optional exponent, consuming the whole input.
Exotic accepted forms (digit-group underscores, hex floats) are omitted
from the model.  Deliberate deviation from IEEE-754: finite literals
are kept as exact decimal values — no rounding to 53-bit doubles and no
overflow of large finite literals to infinity (`float("1e400")` is
`inf` in CPython but `10 ^ 400` here); infinity arises in the model
only through the literal `inf`/`infinity` forms.  Theorems whose truth
depends on float *values* therefore restrict themselves to inputs
below `2 ^ 53`, where CPython doubles are exact and agree with this
model. -/
def pyFloatAux? (l : List Char) : Option PyFloat :=
  let (neg, r) := splitSign l
  let lw := r.map Char.toLower
  if lw = ['i', 'n', 'f'] || lw = ['i', 'n', 'f', 'i', 'n', 'i', 't', 'y'] then
    some (if neg then .negInf else .inf)
  else if lw = ['n', 'a', 'n'] then some .nan
  else
    match parseMantissa r with
    | none => none
    | some (n, d, r1) =>
      match parseExponent r1 with
      | none => none
      | some (e, r2) => if r2.isEmpty then some (mkPyFinite neg n d e) else none

/-- Model of Python `float(str)` on a character list (`float` strips
surrounding whitespace itself). -/
def pyFloatL? (l : List Char) : Option PyFloat := pyFloatAux? (pyStripL l)

/-- Truncation toward zero of `num / den`, as Python `int(float)` does
for finite floats. -/
def pyTrunc (num : Int) (den : Nat) : Int := num.tdiv (den : Int)

/-- Model of Python `int(f)` on a float value: finite values truncate
toward zero, infinities raise `OverflowError`, `nan` raises
`ValueError`. -/
def pyIntOfFloat : PyFloat → Except PyErr Int
  | .finite num den => .ok (pyTrunc num den)
  | .inf => .error .overflowError
  | .negInf => .error .overflowError
  | .nan => .error .valueError

/-- Multiplication of a float value by a positive integer constant.
Exact, like the rest of the float model: CPython float multiplication
can round and overflow to infinity (`float("1e308") * 1000` is `inf`),
which the model does not reproduce; value-dependent theorems keep their
concrete inputs far below that range. -/
def mulPyFloat (f : PyFloat) (m : Nat) : PyFloat :=
  match f with
  | .finite num den => .finite (num * (m : Int)) den
  | .inf => .inf
  | .negInf => .negInf
  | .nan => .nan

/-- Model of Python `int(str)`: surrounding whitespace, optional sign,
then a nonempty run of decimal digits (digit-group underscores omitted
from the model). -/
def pyIntL? (l : List Char) : Option Int :=
  let (neg, r) := splitSign (pyStripL l)
  if !r.isEmpty && r.all Char.isDigit then
    some (if neg then -(digitsToNat r : Int) else (digitsToNat r : Int))
  else none

/-- `text.replace(',', '')`. -/
def removeCommasL (l : List Char) : List Char := l.filter (fun c => c ≠ ',')

/-- Suffix lookup of `parse_number_abbrev`: the `multipliers` dict is
scanned in insertion order `K,M,B,k,m,b` with `str.endswith`; for
single-character suffixes this is a match on the last character. -/
def abbrevSuffix (l : List Char) : Option Nat :=
  match l.getLast? with
  | none => none
  | some c =>
    if c = 'K' then some 1000
    else if c = 'M' then some 1000000
    else if c = 'B' then some 1000000000
    else if c = 'k' then some 1000
    else if c = 'm' then some 1000000
    else if c = 'b' then some 1000000000
    else none

/-- `parse_number_abbrev` from `src/src/utils/helpers.py`.  Empty input
returns 0; otherwise commas are removed and the text stripped; a
recognized suffix multiplies the float value of the prefix, else the
text itself is converted via `int(float(text))`.  Both conversion sites
catch only `ValueError` (returning 0), so an `OverflowError` from
`int()` on an infinite value escapes. -/
def parse_number_abbrev (s : String) : Except PyErr Int :=
  if s = "" then .ok 0
  else
    let t := pyStripL (removeCommasL s.data)
    match abbrevSuffix t with
    | some mult =>
      match pyFloatL? t.dropLast with
      | none => .ok 0
      | some f =>
        match pyIntOfFloat (mulPyFloat f mult) with
        | .ok n => .ok n
        | .error .valueError => .ok 0
        | .error .overflowError => .error .overflowError
    | none =>
      match pyFloatL? t with
      | none => .ok 0
      | some f =>
        match pyIntOfFloat f with
        | .ok n => .ok n
        | .error .valueError => .ok 0
        | .error .overflowError => .error .overflowError

/-- `_parse_metric_number` from `src/src/core/selenium_scraper.py`.
Empty input returns 0; commas are removed; an uppercase `K` anywhere in
the text selects the thousand branch (`float` of the text with all `K`
removed, no exception handler), likewise `M` for millions; otherwise
`int(text)` with a bare `except` returning 0. -/
def parse_metric_number (s : String) : Except PyErr Int :=
  if s = "" then .ok 0
  else
    let t := removeCommasL s.data
    if 'K' ∈ t then
      match pyFloatL? (t.filter (fun c => c ≠ 'K')) with
      | none => .error .valueError
      | some f => pyIntOfFloat (mulPyFloat f 1000)
    else if 'M' ∈ t then
      match pyFloatL? (t.filter (fun c => c ≠ 'M')) with
      | none => .error .valueError
      | some f => pyIntOfFloat (mulPyFloat f 1000000)
    else
      match pyIntL? t with
      | some n => .ok n
      | none => .ok 0

example : parse_number_abbrev "1.2K" = .ok 1200 := by decide
example : parse_number_abbrev "" = .ok 0 := by decide
example : parse_number_abbrev "3M" = .ok 3000000 := by decide
example : parse_number_abbrev "abc" = .ok 0 := by decide
example : parse_number_abbrev "inf" = .error .overflowError := by decide
example : parse_number_abbrev "2B" = .ok 2000000000 := by decide
example : parse_metric_number "2B" = .ok 0 := by decide
example : parse_metric_number "1.2K" = .ok 1200 := by decide
example : parse_metric_number "1k" = .ok 0 := by decide
example : parse_number_abbrev "1k" = .ok 1000 := by decide
example : parse_number_abbrev "-1.5" = .ok (-1) := by decide
example : parse_number_abbrev "nan" = .ok 0 := by decide

/- ## Username validation (src/src/core/base_scraper.py) -/

/-- Model of Python `str.isalnum()` on ASCII text: nonempty and every
character a (latin) letter or decimal digit. -/
def pyIsAlnum (l : List Char) : Bool := !l.isEmpty && l.all Char.isAlphanum

/-- `BaseScraper.validate_username` from `src/src/core/base_scraper.py`:
raises `ValueError` on empty input, strips every leading `@`
(`str.lstrip('@')`), removes all `_` and `-`, and raises `ValueError`
unless the remainder satisfies `isalnum()`; on success it returns the
`@`-stripped username. -/
def validate_username (s : String) : Except PyErr String :=
  if s = "" then .error .valueError
  else
    let u := s.data.dropWhile (fun c => c = '@')
    if pyIsAlnum ((u.filter (fun c => c ≠ '_')).filter (fun c => c ≠ '-')) then .ok ⟨u⟩
    else .error .valueError

example : validate_username "john_doe" = .ok "john_doe" := by decide
example : validate_username "john-doe" = .ok "john-doe" := by decide
example : validate_username "john doe" = .error .valueError := by decide
example : validate_username "john!doe" = .error .valueError := by decide
example : validate_username "@@john" = .ok "john" := by decide
example : validate_username "_" = .error .valueError := by decide

/- ## Mention / hashtag extraction (src/src/utils/helpers.py) -/

/-- Characters matched by `[A-Za-z0-9_]` in the mention regex
`@([A-Za-z0-9_]+)`. -/
def isMentionChar (c : Char) : Bool := c.isAlphanum || c = '_'

/-- Characters matched by `\w` in the hashtag regex `#(\w+)` (ASCII
model). -/
def isWordChar (c : Char) : Bool := c.isAlphanum || c = '_'

/-- Worker modelling `re.findall` for a pattern `marker(wp+)`: scan left
to right; at a marker, capture the maximal nonempty run of `wp`
characters and resume after it, otherwise advance one character.  Each
step consumes at least one character, so the input length is enough
fuel. -/
def findTokensGo (marker : Char) (wp : Char → Bool) : Nat → List Char → List (List Char)
  | 0, _ => []
  | _ + 1, [] => []
  | fuel + 1, c :: rest =>
    if c = marker then
      let w := rest.takeWhile wp
      if w.isEmpty then findTokensGo marker wp fuel rest
      else w :: findTokensGo marker wp fuel (rest.drop w.length)
    else findTokensGo marker wp fuel rest

/-- `re.findall` model for `marker(wp+)` patterns. -/
def findTokens (marker : Char) (wp : Char → Bool) (l : List Char) : List (List Char) :=
  findTokensGo marker wp l.length l

/-- Model of Python `str.lower()` on ASCII text. -/
def lowerL (l : List Char) : List Char := l.map Char.toLower

/-- The case-insensitive seen-set deduplication loop shared by
`extract_mentions` and `extract_hashtags`: keep an occurrence only if
its lowercase form was not seen before. -/
def dedupCIGo : List (List Char) → List (List Char) → List (List Char)
  | _, [] => []
  | seen, x :: xs =>
    if lowerL x ∈ seen then dedupCIGo seen xs
    else x :: dedupCIGo (lowerL x :: seen) xs

/-- The specification-side rendering of "first-seen casing, order of
first occurrence": keep the first element of every lowercase class —
with exactly its casing, at its position — and drop all its later
case-insensitive duplicates. -/
def keepFirstCI : List (List Char) → List (List Char)
  | [] => []
  | x :: xs => x :: keepFirstCI (xs.filter (fun y => lowerL y ≠ lowerL x))
termination_by l => l.length
decreasing_by
  simp only [List.length_cons]
  exact Nat.lt_succ_of_le (List.length_filter_le _ _)

/-- The raw (pre-deduplication) mention matches of
`re.findall(r'@([A-Za-z0-9_]+)', text)`. -/
def rawMentions (s : String) : List String :=
  (findTokens '@' isMentionChar s.data).map (fun l => (⟨l⟩ : String))

/-- The raw (pre-deduplication) hashtag matches of
`re.findall(r'#(\w+)', text)`. -/
def rawHashtags (s : String) : List String :=
  (findTokens '#' isWordChar s.data).map (fun l => (⟨l⟩ : String))

/-- `extract_mentions` from `src/src/utils/helpers.py`. -/
def extract_mentions (s : String) : List String :=
  if s.data.isEmpty then []
  else (dedupCIGo [] (findTokens '@' isMentionChar s.data)).map (fun l => (⟨l⟩ : String))

/-- `extract_hashtags` from `src/src/utils/helpers.py`. -/
def extract_hashtags (s : String) : List String :=
  if s.data.isEmpty then []
  else (dedupCIGo [] (findTokens '#' isWordChar s.data)).map (fun l => (⟨l⟩ : String))

example : extract_mentions "hi @Bob and @bob, also @Alice!" = ["Bob", "Alice"] := by decide
example : extract_hashtags "#Lean #lean #Proof" = ["Lean", "Proof"] := by decide
example : extract_mentions "a@@bob" = ["bob"] := by decide

/- ## Datetime model (Python `datetime`) -/

/-- A Python `datetime` value, with an optional fixed UTC offset in
minutes for timezone-aware values. -/
structure PyDateTime where
  year : Nat
  month : Nat
  day : Nat
  hour : Nat
  minute : Nat
  second : Nat
  microsecond : Nat
  tzOffsetMinutes : Option Int
deriving DecidableEq

/-- Decimal digits of `n`, left-padded with zeros to `width`. -/
def padNum (width n : Nat) : List Char :=
  let s := (toString n).data
  List.replicate (width - s.length) '0' ++ s

/-- Model of `datetime.isoformat()`:
`YYYY-MM-DDTHH:MM:SS[.ffffff][+HH:MM]`, with the fractional part only
when the microsecond field is nonzero and the offset only for aware
values. -/
def isoformatL (dt : PyDateTime) : List Char :=
  padNum 4 dt.year ++ '-' :: padNum 2 dt.month ++ '-' :: padNum 2 dt.day ++
  'T' :: padNum 2 dt.hour ++ ':' :: padNum 2 dt.minute ++ ':' :: padNum 2 dt.second ++
  (if dt.microsecond = 0 then [] else '.' :: padNum 6 dt.microsecond) ++
  (match dt.tzOffsetMinutes with
   | none => []
   | some off =>
     (if off < 0 then '-' else '+') ::
     (padNum 2 (off.natAbs / 60) ++ ':' :: padNum 2 (off.natAbs % 60)))

/-- Parse exactly `n` decimal digits, returning their value and the
rest. -/
def parseNDigits (n : Nat) (l : List Char) : Option (Nat × List Char) :=
  let ds := l.take n
  if ds.length = n && ds.all Char.isDigit then some (digitsToNat ds, l.drop n) else none

/-- Consume an expected single character. -/
def expectChar (c : Char) : List Char → Option (List Char)
  | x :: r => if x = c then some r else none
  | [] => none

/-- Parse an optional trailing UTC offset `±HH:MM`; an empty rest means
a naive value. -/
def parseTzOffset : List Char → Option (Option Int)
  | [] => some none
  | c :: r =>
    if c = '+' || c = '-' then do
      let (hh, r1) ← parseNDigits 2 r
      let r2 ← expectChar ':' r1
      let (mm, r3) ← parseNDigits 2 r2
      if r3.isEmpty && hh < 24 && mm < 60 then
        let v : Int := (hh * 60 + mm : Nat)
        some (some (if c = '-' then -v else v))
      else none
    else none

/-- Parse the time-of-day part `HH:MM[:SS[.ffffff]]` followed by an
optional offset. -/
def parseIsoTime (l : List Char) : Option (Nat × Nat × Nat × Nat × Option Int) := do
  let (hh, r1) ← parseNDigits 2 l
  let r2 ← expectChar ':' r1
  let (mi, r3) ← parseNDigits 2 r2
  let (ss, us, r4) ← match r3 with
    | ':' :: r => do
      let (ss, r5) ← parseNDigits 2 r
      match r5 with
      | '.' :: r6 => do
        let (us, r7) ← parseNDigits 6 r6
        pure (ss, us, r7)
      | _ => pure (ss, 0, r5)
    | _ => pure (0, 0, r3)
  let off ← parseTzOffset r4
  if hh < 24 && mi < 60 && ss < 60 then some (hh, mi, ss, us, off) else none

/-- Model of `datetime.fromisoformat`: `YYYY-MM-DD`, optionally followed
by a one-character separator and a time-of-day with optional UTC
offset.  Month/day validity is checked against the simplified bound of
31 days per month. -/
def fromisoformatL (l : List Char) : Option PyDateTime := do
  let (y, r1) ← parseNDigits 4 l
  let r2 ← expectChar '-' r1
  let (mo, r3) ← parseNDigits 2 r2
  let r4 ← expectChar '-' r3
  let (d, r5) ← parseNDigits 2 r4
  if 1 ≤ mo && mo ≤ 12 && 1 ≤ d && d ≤ 31 then
    match r5 with
    | [] => some ⟨y, mo, d, 0, 0, 0, 0, none⟩
    | _ :: r6 => do
      let (hh, mi, ss, us, off) ← parseIsoTime r6
      some ⟨y, mo, d, hh, mi, ss, us, off⟩
  else none

/-- `timestamp_str.replace("Z", "+00:00")`. -/
def replaceZ (l : List Char) : List Char :=
  l.flatMap (fun c => if c = 'Z' then "+00:00".data else [c])

example : fromisoformatL "2022-10-05T20:11:50".data =
    some ⟨2022, 10, 5, 20, 11, 50, 0, none⟩ := by decide
example : fromisoformatL (replaceZ "2022-10-05T20:11:50Z".data) =
    some ⟨2022, 10, 5, 20, 11, 50, 0, some 0⟩ := by decide
example : fromisoformatL "garbage".data = none := by decide

/- ## The Tweet model (src/src/models/tweet.py) -/

/-- The `Tweet` dataclass record.  List-valued fields are typed as
lists (the `__post_init__` `None` guards are unreachable then) and the
free-form `metadata` dict is modelled as an association list. -/
structure Tweet where
  content : String
  username : String
  timestamp : PyDateTime
  likes : Int
  retweets : Int
  replies : Int
  quotes : Int
  mentions : List String
  hashtags : List String
  url : String
  method : String
  id : Option String
  language : Option String
  is_reply : Bool
  is_retweet : Bool
  media_urls : List String
  metadata : List (String × String)
deriving DecidableEq

/-- Construction of a `Tweet` through the dataclass constructor,
including the `__post_init__` processing: a truthy (nonempty) content
string is stripped. -/
def mkTweet (content username : String) (timestamp : PyDateTime)
    (likes retweets replies quotes : Int) (mentions hashtags : List String)
    (url method : String) (id language : Option String)
    (is_reply is_retweet : Bool) (media_urls : List String)
    (metadata : List (String × String)) : Tweet :=
  { content := if content = "" then content else pyStrip content
    username := username, timestamp := timestamp
    likes := likes, retweets := retweets, replies := replies, quotes := quotes
    mentions := mentions, hashtags := hashtags
    url := url, method := method, id := id, language := language
    is_reply := is_reply, is_retweet := is_retweet
    media_urls := media_urls, metadata := metadata }

/-- `Tweet.engagement_total`. -/
def Tweet.engagement_total (t : Tweet) : Int :=
  t.likes + t.retweets + t.replies + t.quotes

/-- `Tweet.has_media`. -/
def Tweet.has_media (t : Tweet) : Bool := t.media_urls.length > 0

/-- Number of whitespace-separated words, as `len(s.split())`. -/
def countWordsGo : Bool → List Char → Nat
  | _, [] => 0
  | inWord, c :: cs =>
    if isPySpace c then countWordsGo false cs
    else (if inWord then 0 else 1) + countWordsGo true cs

/-- `Tweet.word_count`. -/
def Tweet.word_count (t : Tweet) : Nat :=
  if t.content = "" then 0 else countWordsGo false t.content.data

/-- `Tweet.character_count`. -/
def Tweet.character_count (t : Tweet) : Nat :=
  if t.content = "" then 0 else t.content.length

/-- The dictionary produced by `Tweet.to_dict`, field for field. -/
structure TweetDict where
  content : String
  username : String
  timestamp : String
  likes : Int
  retweets : Int
  replies : Int
  quotes : Int
  mentions : List String
  hashtags : List String
  url : String
  method : String
  id : Option String
  language : Option String
  is_reply : Bool
  is_retweet : Bool
  media_urls : List String
  engagement_total : Int
  has_media : Bool
  word_count : Nat
  character_count : Nat
  metadata : List (String × String)
deriving DecidableEq

/-- `Tweet.to_dict` from `src/src/models/tweet.py`: the timestamp is
serialized with `isoformat()` and the derived properties are included
alongside the stored fields. -/
def Tweet.to_dict (t : Tweet) : TweetDict :=
  { content := t.content, username := t.username
    timestamp := ⟨isoformatL t.timestamp⟩
    likes := t.likes, retweets := t.retweets, replies := t.replies, quotes := t.quotes
    mentions := t.mentions, hashtags := t.hashtags
    url := t.url, method := t.method, id := t.id, language := t.language
    is_reply := t.is_reply, is_retweet := t.is_retweet
    media_urls := t.media_urls
    engagement_total := t.engagement_total
    has_media := t.has_media
    word_count := t.word_count
    character_count := t.character_count
    metadata := t.metadata }

/-- `Tweet.from_dict` from `src/src/models/tweet.py`: the string
timestamp is parsed with `fromisoformat` after `Z` replacement, falling
back to the current time on parse failure, and the record is rebuilt
through the dataclass constructor (the extra derived dict entries are
ignored). -/
def Tweet.from_dict (d : TweetDict) (now : PyDateTime) : Tweet :=
  let timestamp := match fromisoformatL (replaceZ d.timestamp.data) with
    | some dt => dt
    | none => now
  mkTweet d.content d.username timestamp d.likes d.retweets d.replies d.quotes
    d.mentions d.hashtags d.url d.method d.id d.language d.is_reply d.is_retweet
    d.media_urls d.metadata

/- ## Page extraction (src/src/core/selenium_scraper.py) -/

/-- A rendered tweet page element, reduced to the observations the
scraper makes of it: `text` is the `tweetText` sub-element's text
(`none` models `NoSuchElementException`); `datetime` is the `time`
sub-element's machine-readable attribute (`none` models a missing `time`
element or a missing attribute, both of which raise inside the guarded
block); the four metric fields are the stripped texts of the
reply/retweet/like/quote sub-elements (`none` models a missing one). -/
structure TweetElem where
  text : Option String
  datetime : Option String
  replyText : Option String
  retweetText : Option String
  likeText : Option String
  quoteText : Option String
deriving DecidableEq

/-- One metric of `_extract_engagement_metrics`: a missing sub-element
(`NoSuchElementException`) or a `ValueError` from the parse yields 0,
but any other exception from `_parse_metric_number` (an
`OverflowError`) escapes the `(NoSuchElementException, ValueError)`
handler. -/
def metricOf (mtext : Option String) : Except PyErr Int :=
  match mtext with
  | none => .ok 0
  | some txt =>
    match parse_metric_number (pyStrip txt) with
    | .ok n => .ok n
    | .error .valueError => .ok 0
    | .error .overflowError => .error .overflowError

/-- `_extract_engagement_metrics`: the four counters in the source's
dict order `(replies, retweets, likes, quotes)`. -/
def extract_engagement_metrics (e : TweetElem) : Except PyErr (Int × Int × Int × Int) := do
  let replies ← metricOf e.replyText
  let retweets ← metricOf e.retweetText
  let likes ← metricOf e.likeText
  let quotes ← metricOf e.quoteText
  pure (replies, retweets, likes, quotes)

/-- `SeleniumScraper._extract_tweet_data`: no text container or empty
cleaned content yields `None`; a missing or unparseable timestamp falls
back to `datetime.now()` (passed here as `now`); any exception escaping
the metrics extraction is swallowed by the outer handlers into `None`;
otherwise a `Tweet` is built from the cleaned content. -/
def extract_tweet_data (e : TweetElem) (username : String) (now : PyDateTime) :
    Option Tweet :=
  match e.text with
  | none => none
  | some raw =>
    let content := clean_text raw
    if content = "" then none
    else
      let timestamp := match e.datetime with
        | none => now
        | some ts =>
          match fromisoformatL (replaceZ ts.data) with
          | some dt => dt
          | none => now
      match extract_engagement_metrics e with
      | .error _ => none
      | .ok (replies, retweets, likes, quotes) =>
        some (mkTweet content username timestamp likes retweets replies quotes
          (extract_mentions content) (extract_hashtags content)
          ("https://twitter.com/" ++ username) "selenium" none none false false [] [])

/-- The inner `for tweet_elem in tweet_elements[len(tweets):]` loop of
`scrape_user_tweets`: failed extractions are skipped
(`_should_include_tweet` always returns `True`), accepted tweets are
appended, and the loop breaks as soon as the cap is reached. -/
def innerScan (maxTweets : Nat) (username : String) (now : PyDateTime) :
    List Tweet → List TweetElem → List Tweet
  | tweets, [] => tweets
  | tweets, e :: es =>
    match extract_tweet_data e username now with
    | none => innerScan maxTweets username now tweets es
    | some t =>
      let tweets2 := tweets ++ [t]
      if maxTweets ≤ tweets2.length then tweets2
      else innerScan maxTweets username now tweets2 es

/-- The `while len(tweets) < max_tweets and scroll_count < max_scrolls`
loop of `scrape_user_tweets`.  `render sc` is the list of currently
rendered tweet elements after `sc` scrolls; each pass scans the
rendered elements from index `len(tweets)` (the number of tweets
*accepted* so far).  `remaining` is `max_scrolls - scroll_count`, so
`remaining = 0` is exactly the `scroll_count < max_scrolls` exit; the
pair returned is the tweet list and the number of scrolls performed. -/
def scrapeLoopGo (render : Nat → List TweetElem) (maxTweets : Nat)
    (username : String) (now : PyDateTime) :
    Nat → Nat → List Tweet → List Tweet × Nat
  | 0, sc, tweets => (tweets, sc)
  | remaining + 1, sc, tweets =>
    if tweets.length < maxTweets then
      let tweets2 := innerScan maxTweets username now tweets
        ((render sc).drop tweets.length)
      if tweets2.length < maxTweets then
        scrapeLoopGo render maxTweets username now remaining (sc + 1) tweets2
      else (tweets2, sc)
    else (tweets, sc)

/-- `SeleniumScraper.scrape_user_tweets`, abstracted over the rendered
page states: runs the scroll loop from an empty list and zero scrolls
and returns `tweets[:max_tweets]` together with the number of scrolls
performed. -/
def scrape_user_tweets (render : Nat → List TweetElem) (maxTweets maxScrolls : Nat)
    (username : String) (now : PyDateTime) : List Tweet × Nat :=
  let r := scrapeLoopGo render maxTweets username now maxScrolls 0 []
  (r.1.take maxTweets, r.2)

/- ## Retry with backoff (src/src/core/base_scraper.py) -/

/-- The `for attempt in range(max_retries)` loop of
`BaseScraper._retry_with_backoff`.  `results i` is the outcome of the
wrapped call on attempt `i`; `u i` models the `random.uniform(1, 2)`
draw after attempt `i`; `sleeps` accumulates the slept durations.
`remaining` is the number of loop iterations left (`max_retries`
initially).  When the loop ends without a success, the saved
`last_exception` is re-raised unchanged (`none` models the initial
`None`, re-raised when the loop never ran). -/
def retryGo {E A : Type} (results : Nat → Except E A) (maxRetries : Nat)
    (u : Nat → ℚ) : Nat → Nat → Option E → List ℚ → Except (Option E) A × List ℚ
  | 0, _, last, sleeps => (.error last, sleeps)
  | remaining + 1, attempt, _, sleeps =>
    match results attempt with
    | .ok v => (.ok v, sleeps)
    | .error e =>
      if attempt < maxRetries then
        retryGo results maxRetries u remaining (attempt + 1) (some e)
          (sleeps ++ [2 ^ attempt * u attempt])
      else
        retryGo results maxRetries u remaining (attempt + 1) (some e) sleeps

/-- `BaseScraper._retry_with_backoff`, abstracted over the per-attempt
outcomes of the wrapped function and over the uniform random draws. -/
def retry_with_backoff {E A : Type} (results : Nat → Except E A)
    (maxRetries : Nat) (u : Nat → ℚ) : Except (Option E) A × List ℚ :=
  retryGo results maxRetries u maxRetries 0 none []

/- ## Concrete scenario data -/

/-- Model of Python `str.lower()` on `String`. -/
def lowerS (s : String) : String := ⟨lowerL s.data⟩

/-- A well-formed rendered tweet element with the given text and no
time or metric sub-elements. -/
def goodElem (s : String) : TweetElem := ⟨some s, none, none, none, none, none⟩

/-- A malformed rendered tweet element: its `tweetText` sub-element is
missing, so extraction skips it. -/
def badElem : TweetElem := ⟨none, none, none, none, none, none⟩

/-- A fixed extraction-moment clock reading. -/
def sampleNow : PyDateTime := ⟨2024, 1, 1, 0, 0, 0, 0, none⟩

/-- Page states for the C7 scenario with the malformed element rendered
*first* in each pass: pass 1 renders 4 elements (1 malformed), pass 2
renders the same 4 plus 4 new elements (1 of the new ones malformed). -/
def renderMalformedFirst : Nat → List TweetElem := fun sc =>
  if sc = 0 then [badElem, goodElem "aa", goodElem "bb", goodElem "cc"]
  else [badElem, goodElem "aa", goodElem "bb", goodElem "cc",
        badElem, goodElem "dd", goodElem "ee", goodElem "ff"]

/-- Page states for the C7 scenario with the malformed element rendered
*last* in each pass. -/
def renderMalformedLast : Nat → List TweetElem := fun sc =>
  if sc = 0 then [goodElem "aa", goodElem "bb", goodElem "cc", badElem]
  else [goodElem "aa", goodElem "bb", goodElem "cc", badElem,
        goodElem "dd", goodElem "ee", goodElem "ff", badElem]

/-- The tweet record extracted from `goodElem s` (content `s`, assuming
`s` is clean and mention/hashtag free) at clock reading `sampleNow`. -/
def sampleTweet (s : String) : Tweet :=
  mkTweet s "user" sampleNow 0 0 0 0 [] [] "https://twitter.com/user" "selenium"
    none none false false [] []

/- ## Normalization invariants used in the proofs -/

/-- Every whitespace character of the list is a plain space. -/
def SpacesBlank (l : List Char) : Prop := ∀ c ∈ l, isPySpace c = true → c = ' '

/-- No two adjacent characters of the list are both whitespace. -/
def NoDoubleSpace (l : List Char) : Prop :=
  List.Chain' (fun a b => ¬(isPySpace a = true ∧ isPySpace b = true)) l

/- # Theorems -/

/- ## Generic list facts -/

theorem dropWhile_head_not {α : Type} (p : α → Bool) (l : List α) :
    ∀ c, (l.dropWhile p).head? = some c → p c = false := by
  induction l with
  | nil => intro c hc; simp [List.dropWhile] at hc
  | cons a l ih =>
    intro c hc
    rw [List.dropWhile_cons] at hc
    by_cases h : p a
    · rw [if_pos h] at hc; exact ih c hc
    · rw [if_neg h] at hc
      simp only [List.head?_cons, Option.some.injEq] at hc
      subst hc; simpa using h

theorem dropWhile_eq_self_of_head {α : Type} (p : α → Bool) (l : List α)
    (h : ∀ c, l.head? = some c → p c = false) : l.dropWhile p = l := by
  cases l with
  | nil => rfl
  | cons a l => rw [List.dropWhile_cons, if_neg (by simp [h a rfl])]

theorem getLast?_dropWhile {α : Type} (p : α → Bool) (l : List α)
    (h : l.dropWhile p ≠ []) : (l.dropWhile p).getLast? = l.getLast? := by
  induction l with
  | nil => simp [List.dropWhile] at h
  | cons a l ih =>
    by_cases hp : p a
    · rw [List.dropWhile_cons, if_pos hp] at h ⊢
      have hl : l ≠ [] := by
        intro e; subst e; simp [List.dropWhile] at h
      obtain ⟨b, l2, rfl⟩ := List.exists_cons_of_ne_nil hl
      rw [ih h, List.getLast?_cons_cons]
    · rw [List.dropWhile_cons, if_neg hp]

theorem mem_pyStripL {c : Char} {l : List Char} (h : c ∈ pyStripL l) : c ∈ l := by
  unfold pyStripL at h
  rw [List.mem_reverse] at h
  have h2 := (List.dropWhile_sublist _).mem h
  rw [List.mem_reverse] at h2
  exact (List.dropWhile_sublist _).mem h2

theorem pyStripL_head (l : List Char) :
    ∀ c, (pyStripL l).head? = some c → isPySpace c = false := by
  intro c hc
  unfold pyStripL at hc
  rw [List.head?_reverse] at hc
  by_cases hnil : (((l.dropWhile isPySpace).reverse).dropWhile isPySpace) = []
  · rw [hnil] at hc; simp at hc
  · rw [getLast?_dropWhile _ _ hnil, List.getLast?_reverse] at hc
    exact dropWhile_head_not isPySpace l c hc

theorem pyStripL_last (l : List Char) :
    ∀ c, (pyStripL l).getLast? = some c → isPySpace c = false := by
  intro c hc
  unfold pyStripL at hc
  rw [List.getLast?_reverse] at hc
  exact dropWhile_head_not isPySpace _ c hc

theorem pyStripL_eq_self (l : List Char)
    (hh : ∀ c, l.head? = some c → isPySpace c = false)
    (hl : ∀ c, l.getLast? = some c → isPySpace c = false) : pyStripL l = l := by
  unfold pyStripL
  rw [dropWhile_eq_self_of_head _ _ hh,
      dropWhile_eq_self_of_head _ _ (by simpa [List.head?_reverse] using hl),
      List.reverse_reverse]

theorem pyStripL_idem (l : List Char) : pyStripL (pyStripL l) = pyStripL l :=
  pyStripL_eq_self _ (pyStripL_head l) (pyStripL_last l)

theorem pyStrip_idem (s : String) : pyStrip (pyStrip s) = pyStrip s := by
  unfold pyStrip
  exact congrArg String.mk (pyStripL_idem s.data)

/- ## Whitespace collapse -/

theorem collapseAux_mem : ∀ (l : List Char) (b : Bool) (c : Char),
    c ∈ collapseWsAux b l → c = ' ' ∨ (c ∈ l ∧ isPySpace c = false) := by
  intro l
  induction l with
  | nil => intro b c h; simp [collapseWsAux] at h
  | cons a l ih =>
    intro b c h
    simp only [collapseWsAux] at h
    by_cases ha : isPySpace a
    · rw [if_pos ha] at h
      cases b with
      | true =>
        simp only [if_pos rfl] at h
        rcases ih true c h with h1 | h1
        · exact Or.inl h1
        · exact Or.inr ⟨List.mem_cons_of_mem a h1.1, h1.2⟩
      | false =>
        rw [if_neg Bool.false_ne_true] at h
        rcases List.mem_cons.mp h with h1 | h1
        · exact Or.inl h1
        · rcases ih true c h1 with h2 | h2
          · exact Or.inl h2
          · exact Or.inr ⟨List.mem_cons_of_mem a h2.1, h2.2⟩
    · rw [if_neg ha] at h
      rcases List.mem_cons.mp h with h1 | h1
      · exact Or.inr ⟨h1 ▸ List.mem_cons_self a l, h1 ▸ (by simpa using ha)⟩
      · rcases ih false c h1 with h2 | h2
        · exact Or.inl h2
        · exact Or.inr ⟨List.mem_cons_of_mem a h2.1, h2.2⟩

theorem collapseAux_blank (l : List Char) (b : Bool) : SpacesBlank (collapseWsAux b l) := by
  intro c hmem hsp
  rcases collapseAux_mem l b c hmem with h | h
  · exact h
  · rw [h.2] at hsp; cases hsp

theorem collapseAux_head_true (l : List Char) :
    ∀ c, (collapseWsAux true l).head? = some c → isPySpace c = false := by
  induction l with
  | nil => intro c hc; simp [collapseWsAux] at hc
  | cons a l ih =>
    intro c hc
    simp only [collapseWsAux, if_pos rfl] at hc
    by_cases ha : isPySpace a
    · rw [if_pos ha] at hc; exact ih c hc
    · rw [if_neg ha] at hc
      simp only [List.head?_cons, Option.some.injEq] at hc
      subst hc; simpa using ha

theorem collapseAux_chain : ∀ (l : List Char) (b : Bool), NoDoubleSpace (collapseWsAux b l) := by
  intro l
  induction l with
  | nil => intro b; simp [collapseWsAux, NoDoubleSpace]
  | cons a l ih =>
    intro b
    simp only [collapseWsAux]
    by_cases ha : isPySpace a
    · rw [if_pos ha]
      cases b with
      | true => simpa using ih true
      | false =>
        rw [if_neg Bool.false_ne_true]
        refine List.chain'_cons'.mpr ⟨?_, ih true⟩
        intro y hy
        have := collapseAux_head_true l y hy
        simp [this]
    · rw [if_neg ha]
      refine List.chain'_cons'.mpr ⟨?_, ih false⟩
      intro y hy
      simp [ha]

theorem collapse_fix : ∀ l : List Char, SpacesBlank l → NoDoubleSpace l →
    collapseWsAux false l = l ∧
    ((∀ c, l.head? = some c → isPySpace c = false) → collapseWsAux true l = l) := by
  intro l
  induction l with
  | nil => intro _ _; exact ⟨rfl, fun _ => rfl⟩
  | cons a l ih =>
    intro hb hc
    have hbl : SpacesBlank l := fun c hcl => hb c (List.mem_cons_of_mem a hcl)
    have hcl : NoDoubleSpace l := hc.tail
    obtain ⟨ih1, ih2⟩ := ih hbl hcl
    constructor
    · by_cases ha : isPySpace a
      · have ha2 : a = ' ' := hb a (List.mem_cons_self a l) ha
        have hlhead : ∀ c, l.head? = some c → isPySpace c = false := by
          intro c hcc
          cases l with
          | nil => simp at hcc
          | cons d t =>
            simp only [List.head?_cons, Option.some.injEq] at hcc
            subst hcc
            have hr := List.chain'_cons.mp hc
            by_contra hd
            exact hr.1 ⟨ha, by simpa using hd⟩
        simp only [collapseWsAux, if_pos ha, if_neg Bool.false_ne_true]
        rw [ih2 hlhead, ha2]
      · simp only [collapseWsAux, if_neg ha]
        rw [ih1]
    · intro hh
      have ha : ¬(isPySpace a = true) := by simpa using hh a rfl
      simp only [collapseWsAux, if_neg ha]
      rw [ih1]

theorem collapseWs_blank (l : List Char) : SpacesBlank (collapseWs l) :=
  collapseAux_blank l false

theorem collapseWs_chain (l : List Char) : NoDoubleSpace (collapseWs l) :=
  collapseAux_chain l false

theorem stripPreserves_blank {l : List Char} (h : SpacesBlank l) :
    SpacesBlank (pyStripL l) := fun c hm => h c (mem_pyStripL hm)

theorem stripPreserves_chain {l : List Char} (h : NoDoubleSpace l) :
    NoDoubleSpace (pyStripL l) := by
  unfold NoDoubleSpace pyStripL
  set R : Char → Char → Prop := fun a b => ¬(isPySpace a = true ∧ isPySpace b = true) with hR
  have hsymm : ∀ {m : List Char}, List.Chain' R m → List.Chain' (flip R) m := by
    intro m hm
    exact hm.imp (fun {a b} hab => fun ⟨x, y⟩ => hab ⟨y, x⟩)
  have h1 : List.Chain' R (l.dropWhile isPySpace) :=
    h.suffix (List.dropWhile_suffix _)
  have h2 : List.Chain' R (l.dropWhile isPySpace).reverse :=
    List.chain'_reverse.mpr (hsymm h1)
  have h3 : List.Chain' R ((l.dropWhile isPySpace).reverse.dropWhile isPySpace) :=
    h2.suffix (List.dropWhile_suffix _)
  exact List.chain'_reverse.mpr (hsymm h3)

theorem cleanCore_idem (l : List Char) :
    pyStripL (collapseWs (pyStripL (collapseWs l))) = pyStripL (collapseWs l) := by
  have hb : SpacesBlank (pyStripL (collapseWs l)) :=
    stripPreserves_blank (collapseWs_blank l)
  have hc : NoDoubleSpace (pyStripL (collapseWs l)) :=
    stripPreserves_chain (collapseWs_chain l)
  have hcol : collapseWs (pyStripL (collapseWs l)) = pyStripL (collapseWs l) :=
    (collapse_fix _ hb hc).1
  rw [hcol]
  exact pyStripL_eq_self _ (pyStripL_head (collapseWs l)) (pyStripL_last (collapseWs l))

/- ## HTML unescape -/

theorem unescapeGo_no_amp : ∀ (fuel : Nat) (l : List Char), '&' ∉ l →
    unescapeGo fuel l = l := by
  intro fuel
  induction fuel with
  | zero => intro l _; rfl
  | succ fuel ih =>
    intro l h
    cases l with
    | nil => rfl
    | cons c rest =>
      have hc : ¬(c = '&') := by
        intro e; exact h (e ▸ List.mem_cons_self c rest)
      simp only [unescapeGo, if_neg hc]
      rw [ih rest (fun hm => h (List.mem_cons_of_mem c hm))]

theorem htmlUnescapeL_no_amp {l : List Char} (h : '&' ∉ l) : htmlUnescapeL l = l :=
  unescapeGo_no_amp l.length l h

theorem amp_not_mem_collapse {l : List Char} (b : Bool) (h : '&' ∉ l) :
    '&' ∉ collapseWsAux b l := by
  intro hm
  rcases collapseAux_mem l b '&' hm with h1 | h1
  · cases h1
  · exact h h1.1

theorem amp_not_mem_strip {l : List Char} (h : '&' ∉ l) : '&' ∉ pyStripL l :=
  fun hm => h (mem_pyStripL hm)

/-- Claim C2, counterexample: `clean_text` is not idempotent on all
inputs.  On `"&amp;amp;"` the first pass unescapes the leading `&amp;`
to `&`, leaving `"&amp;"`, which the second pass unescapes again to
`"&"`. -/
theorem C2_clean_not_idempotent :
    clean_text (clean_text "&amp;amp;") ≠ clean_text "&amp;amp;" := by decide

/-- Claim C2, amended: `clean_text` (HTML-entity unescape, NFKC
normalization, whitespace-run collapse, trim) is idempotent on every
input that contains no ampersand, so that the unescape pass cannot
produce a fresh entity; the model covers ASCII text, on which NFKC is
the identity. -/
theorem C2_clean_idempotent (s : String) (_hAscii : ∀ c ∈ s.data, c.toNat < 128)
    (hAmp : '&' ∉ s.data) : clean_text (clean_text s) = clean_text s := by
  unfold clean_text
  refine congrArg String.mk ?_
  show cleanTextL (cleanTextL s.data) = cleanTextL s.data
  by_cases hl : s.data = []
  · simp [cleanTextL, hl]
  · have h1 : cleanTextL s.data = pyStripL (collapseWs (htmlUnescapeL s.data)) := by
      simp [cleanTextL, hl, nfkcAscii]
    rw [h1, htmlUnescapeL_no_amp hAmp]
    by_cases hyn : pyStripL (collapseWs s.data) = []
    · simp [cleanTextL, hyn]
    · have hampy : '&' ∉ pyStripL (collapseWs s.data) :=
        amp_not_mem_strip (amp_not_mem_collapse false hAmp)
      have h2 : cleanTextL (pyStripL (collapseWs s.data)) =
          pyStripL (collapseWs (htmlUnescapeL (pyStripL (collapseWs s.data)))) := by
        simp [cleanTextL, hyn, nfkcAscii]
      rw [h2, htmlUnescapeL_no_amp hampy]
      exact cleanCore_idem s.data

/-- Witness for C2: the amended idempotence applied to the concrete
ampersand-free input `"  a   b "`. -/
theorem C2_clean_idempotent_witness :
    clean_text (clean_text "  a   b ") = clean_text "  a   b " :=
  C2_clean_idempotent "  a   b " (by decide) (by decide)

/- ## Abbreviated number parsing -/

theorem parse_number_abbrev_ne_valueError (s : String) :
    parse_number_abbrev s ≠ .error .valueError := by
  intro h
  simp only [parse_number_abbrev] at h
  split at h
  · exact Except.noConfusion h
  · split at h
    · split at h
      · exact Except.noConfusion h
      · split at h
        · exact Except.noConfusion h
        · exact Except.noConfusion h
        · exact Except.noConfusion h fun h2 => PyErr.noConfusion h2
    · split at h
      · exact Except.noConfusion h
      · split at h
        · exact Except.noConfusion h
        · exact Except.noConfusion h
        · exact Except.noConfusion h fun h2 => PyErr.noConfusion h2

theorem digit_toLower {c : Char} (h : c.isDigit = true) : c.toLower = c := by
  simp only [Char.isDigit, Bool.and_eq_true, decide_eq_true_eq] at h
  obtain ⟨h1, h2⟩ := h
  simp only [Char.toLower]
  rw [if_neg]
  rintro ⟨hge, -⟩
  have h3 : c.toNat ≤ 57 := h2
  omega

theorem isPySpace_of_digit {c : Char} (h : c.isDigit = true) : isPySpace c = false := by
  simp only [Char.isDigit, Bool.and_eq_true, decide_eq_true_eq] at h
  obtain ⟨h1, h2⟩ := h
  have h3 : c.val.toNat ≤ 57 := h2
  have h4 : 48 ≤ c.val.toNat := h1
  simp only [isPySpace, Bool.or_eq_false_iff, decide_eq_false_iff_not]
  refine ⟨⟨⟨⟨⟨⟨⟨⟨⟨?_, ?_⟩, ?_⟩, ?_⟩, ?_⟩, ?_⟩, ?_⟩, ?_⟩, ?_⟩, ?_⟩ <;>
    (intro he; subst he; simp_all)

theorem mem_of_getLast?_eq {α : Type} {l : List α} {c : α}
    (h : l.getLast? = some c) : c ∈ l := by
  have h2 := List.mem_getLast?_eq_getLast (l := l) (x := c) (by simp [h])
  obtain ⟨hne, rfl⟩ := h2
  exact List.getLast_mem hne

theorem pyStripL_of_nospace {l : List Char} (h : ∀ c ∈ l, isPySpace c = false) :
    pyStripL l = l :=
  pyStripL_eq_self l (fun c hc => h c (List.mem_of_mem_head? (by simp [hc])))
    (fun c hc => h c (mem_of_getLast?_eq hc))

theorem abbrevSuffix_digits {l : List Char} (h : ∀ c ∈ l, c.isDigit = true) :
    abbrevSuffix l = none := by
  unfold abbrevSuffix
  cases hl : l.getLast? with
  | none => rfl
  | some c =>
    have hd := h c (mem_of_getLast?_eq hl)
    have e1 : ¬(c = 'K') := fun e => absurd hd (by rw [e]; decide)
    have e2 : ¬(c = 'M') := fun e => absurd hd (by rw [e]; decide)
    have e3 : ¬(c = 'B') := fun e => absurd hd (by rw [e]; decide)
    have e4 : ¬(c = 'k') := fun e => absurd hd (by rw [e]; decide)
    have e5 : ¬(c = 'm') := fun e => absurd hd (by rw [e]; decide)
    have e6 : ¬(c = 'b') := fun e => absurd hd (by rw [e]; decide)
    simp [e1, e2, e3, e4, e5, e6]

theorem splitSign_digits {d : Char} (t : List Char) (hd : d.isDigit = true) :
    splitSign (d :: t) = (false, d :: t) := by
  simp only [splitSign]
  rw [if_neg (fun e => absurd hd (by rw [e]; decide)),
      if_neg (fun e => absurd hd (by rw [e]; decide))]

theorem digits_pyFloatAux {l : List Char} (hne : l ≠ [])
    (h : ∀ c ∈ l, c.isDigit = true) :
    pyFloatAux? l = some (.finite (digitsToNat l : Int) 1) := by
  obtain ⟨d, t, rfl⟩ := List.exists_cons_of_ne_nil hne
  have hd := h d (List.mem_cons_self d t)
  have hdi : ¬(d.toLower = 'i') := fun e => by
    rw [digit_toLower hd] at e
    exact absurd hd (by rw [e]; decide)
  have hdn : ¬(d.toLower = 'n') := fun e => by
    rw [digit_toLower hd] at e
    exact absurd hd (by rw [e]; decide)
  have htake : (d :: t).takeWhile Char.isDigit = d :: t :=
    List.takeWhile_eq_self_iff.mpr h
  have hdrop : (d :: t).dropWhile Char.isDigit = [] :=
    List.dropWhile_eq_nil_iff.mpr h
  simp only [pyFloatAux?, splitSign_digits t hd,
    parseMantissa, htake, hdrop, parseExponent, mkPyFinite]
  simp [hdi, hdn]

theorem digits_abbrev {s : String} (hne : s.data ≠ [])
    (h : ∀ c ∈ s.data, c.isDigit = true) :
    parse_number_abbrev s = .ok (digitsToNat s.data : Int) := by
  have hs : ¬(s = "") := fun e => hne (by simp [e])
  have hcomma : removeCommasL s.data = s.data :=
    List.filter_eq_self.mpr fun a ha =>
      decide_eq_true fun e => absurd (h a ha) (by rw [e]; decide)
  have hstrip : pyStripL s.data = s.data :=
    pyStripL_of_nospace fun c hc => isPySpace_of_digit (h c hc)
  simp only [parse_number_abbrev, if_neg hs, hcomma, hstrip, abbrevSuffix_digits h,
    pyFloatL?, digits_pyFloatAux hne h, pyIntOfFloat, pyTrunc]
  simp [Int.tdiv_one]

theorem digits_metric {s : String} (hne : s.data ≠ [])
    (h : ∀ c ∈ s.data, c.isDigit = true) :
    parse_metric_number s = .ok (digitsToNat s.data : Int) := by
  have hs : ¬(s = "") := fun e => hne (by simp [e])
  have hcomma : removeCommasL s.data = s.data :=
    List.filter_eq_self.mpr fun a ha =>
      decide_eq_true fun e => absurd (h a ha) (by rw [e]; decide)
  have hstrip : pyStripL s.data = s.data :=
    pyStripL_of_nospace fun c hc => isPySpace_of_digit (h c hc)
  have hK : ¬('K' ∈ s.data) := fun hm => absurd (h 'K' hm) (by decide)
  have hM : ¬('M' ∈ s.data) := fun hm => absurd (h 'M' hm) (by decide)
  obtain ⟨d, t, he⟩ := List.exists_cons_of_ne_nil hne
  have hd : d.isDigit = true := h d (by rw [he]; exact List.mem_cons_self d t)
  simp only [parse_metric_number, if_neg hs, hcomma, if_neg hK, if_neg hM, pyIntL?, hstrip]
  rw [he, splitSign_digits t hd]
  simp only [List.isEmpty_cons, Bool.not_false, Bool.true_and]
  rw [if_pos (List.all_eq_true.mpr fun c hc => h c (he ▸ hc))]
  simp

/-- Claim C1, counterexample: `parse_number_abbrev` can raise.  On the
input `"inf"` the suffix scan finds no multiplier, `float("inf")`
succeeds with an infinite value, and `int()` of it raises
`OverflowError`, which the `except ValueError` handler does not catch. -/
theorem C1_parse_abbrev_raises_on_inf :
    parse_number_abbrev "inf" = .error .overflowError := by decide

/-- Claim C1, amended: `parse_number_abbrev` returns `1200` on
`"1.2K"`, `0` on `""`, `3000000` on `"3M"` and `0` on unparseable input
such as `"abc"`; on every input it either returns an integer or raises
`OverflowError` (which happens exactly when the parsed float value is
infinite) — `ValueError`, the only exception its handlers consider, is
always caught. -/
theorem C1_parse_abbrev_spec :
    parse_number_abbrev "1.2K" = .ok 1200 ∧
    parse_number_abbrev "" = .ok 0 ∧
    parse_number_abbrev "3M" = .ok 3000000 ∧
    parse_number_abbrev "abc" = .ok 0 ∧
    ∀ s : String, (∃ n : Int, parse_number_abbrev s = .ok n) ∨
      parse_number_abbrev s = .error .overflowError := by
  refine ⟨by decide, by decide, by decide, by decide, ?_⟩
  intro s
  cases hP : parse_number_abbrev s with
  | ok n => exact .inl ⟨n, rfl⟩
  | error e =>
    cases e with
    | overflowError => exact .inr rfl
    | valueError => exact absurd hP (parse_number_abbrev_ne_valueError s)

/-- Claim C3, counterexample: the Page Extractor's `_parse_metric_number`
is not extensionally equal to `parse_number_abbrev`.  On `"2B"` the
former has no `K`/`M` branch and `int("2B")` fails, so it returns 0,
while the latter recognizes the `B` suffix and returns two billion
(similarly for lowercase `k`/`m`/`b`, which only `parse_number_abbrev`
accepts). -/
theorem C3_parsers_differ :
    parse_metric_number "2B" = .ok 0 ∧
    parse_number_abbrev "2B" = .ok 2000000000 ∧
    parse_metric_number "2B" ≠ parse_number_abbrev "2B" :=
  ⟨by decide, by decide, by decide⟩

/-- Claim C3, amended: the two abbreviated-number parsers agree on plain
nonempty decimal digit strings of at most 15 digits (both returning the
digits' value), but they are not extensionally equal —
`_parse_metric_number` recognizes only uppercase `K` and `M` (anywhere
in the string) and plain integers, so it returns 0 on
`B`/`b`/`k`/`m`-suffixed inputs that `parse_number_abbrev` multiplies.
The 15-digit bound keeps the value below `2 ^ 53`, the range on which
CPython's `int(float(text))` (the `parse_number_abbrev` path) is still
exact and therefore coincides with this development's exact-decimal
float model; above `2 ^ 53` the program's `int(float(·))` rounds — and
for hundreds of digits overflows — while `_parse_metric_number`'s
`int(text)` stays exact, so the agreement genuinely fails there too. -/
theorem C3_parsers_agree_on_digits (s : String) (hne : s.data ≠ [])
    (_hlen : s.data.length ≤ 15)
    (h : ∀ c ∈ s.data, c.isDigit = true) :
    parse_metric_number s = parse_number_abbrev s := by
  rw [digits_metric hne h, digits_abbrev hne h]

/-- Witness for C3: the agreement applied to the digit string `"42"`. -/
theorem C3_parsers_agree_witness :
    parse_metric_number "42" = parse_number_abbrev "42" :=
  C3_parsers_agree_on_digits "42" (by decide) (by decide) (by decide)

/- ## Username validation -/

/-- Claim C4, counterexample: `"_"` consists solely of characters the
claim allows (after stripping a leading `@` there is none to strip), yet
validation raises `ValueError`, because removing all `_`/`-` leaves the
empty string and Python's `isalnum()` is false on it. -/
theorem C4_validate_counter :
    ("_".data.dropWhile (fun c => c = '@')).all
      (fun c => c.isAlphanum || c = '_' || c = '-') = true ∧
    validate_username "_" = .error .valueError :=
  ⟨by decide, by decide⟩

/-- Claim C4, amended: validation succeeds iff, after stripping all
leading `@` characters (not just one), every remaining character is
alphanumeric, `_` or `-` *and* at least one remaining character is
alphanumeric; the returned username is the input with all leading `@`
stripped; `"john_doe"` and `"john-doe"` are accepted, `"john doe"` and
`"john!doe"` rejected. -/
theorem C4_validate_username :
    (∀ s : String, (∃ u, validate_username s = .ok u) ↔
      (((s.data.dropWhile (fun c => c = '@')).all
          (fun c => c.isAlphanum || c = '_' || c = '-') = true) ∧
       ((s.data.dropWhile (fun c => c = '@')).any Char.isAlphanum = true))) ∧
    (∀ s u, validate_username s = .ok u →
      u.data = s.data.dropWhile (fun c => c = '@')) ∧
    validate_username "john_doe" = .ok "john_doe" ∧
    validate_username "john-doe" = .ok "john-doe" ∧
    validate_username "john doe" = .error .valueError ∧
    validate_username "john!doe" = .error .valueError := by
  refine ⟨?_, ?_, by decide, by decide, by decide, by decide⟩
  · intro s
    by_cases hs : s = ""
    · subst hs
      constructor
      · rintro ⟨u, hu⟩; simp [validate_username] at hu
      · rintro ⟨-, hany⟩; exact absurd hany (by decide)
    · unfold validate_username
      rw [if_neg hs]
      by_cases hv : pyIsAlnum (((s.data.dropWhile (fun c => c = '@')).filter
          (fun c => c ≠ '_')).filter (fun c => c ≠ '-')) = true
      · rw [if_pos hv]
        simp only [pyIsAlnum, Bool.and_eq_true, Bool.not_eq_true', Bool.and_eq_true,
          List.all_eq_true] at hv
        have hne : (((s.data.dropWhile (fun c => c = '@')).filter
            (fun c => c ≠ '_')).filter (fun c => c ≠ '-')) ≠ [] := by
          simpa [List.isEmpty_iff] using hv.1
        have hall := hv.2
        constructor
        · intro _
          obtain ⟨c0, hc0⟩ := List.exists_mem_of_ne_nil _ hne
          have hc0f := List.mem_filter.mp hc0
          have hc0f2 := List.mem_filter.mp hc0f.1
          constructor
          · apply List.all_eq_true.mpr
            intro c hc
            by_cases hc1 : c = '_'
            · simp [hc1]
            · by_cases hc2 : c = '-'
              · simp [hc2]
              · have hcr : c ∈ ((s.data.dropWhile (fun c => c = '@')).filter
                    (fun c => c ≠ '_')).filter (fun c => c ≠ '-') :=
                  List.mem_filter.mpr ⟨List.mem_filter.mpr ⟨hc, decide_eq_true hc1⟩,
                    decide_eq_true hc2⟩
                simp [hall c0 hc0, hall c hcr]
          · exact List.any_eq_true.mpr ⟨c0, hc0f2.1, hall c0 hc0⟩
        · intro _; exact ⟨⟨s.data.dropWhile (fun c => c = '@')⟩, rfl⟩
      · rw [if_neg hv]
        constructor
        · rintro ⟨u, hu⟩; exact Except.noConfusion hu
        · rintro ⟨hall, hany⟩
          exfalso
          apply hv
          obtain ⟨c0, hc0m, hc0a⟩ := List.any_eq_true.mp hany
          have hc1 : ¬(c0 = '_') := fun e => absurd hc0a (by rw [e]; decide)
          have hc2 : ¬(c0 = '-') := fun e => absurd hc0a (by rw [e]; decide)
          have hc0r : c0 ∈ ((s.data.dropWhile (fun c => c = '@')).filter
              (fun c => c ≠ '_')).filter (fun c => c ≠ '-') :=
            List.mem_filter.mpr ⟨List.mem_filter.mpr ⟨hc0m, decide_eq_true hc1⟩,
              decide_eq_true hc2⟩
          simp only [pyIsAlnum, Bool.and_eq_true, Bool.not_eq_true', Bool.and_eq_true,
            List.all_eq_true]
          refine ⟨by simpa [List.isEmpty_iff] using List.ne_nil_of_mem hc0r, ?_⟩
          intro c hc
          have hcf := List.mem_filter.mp hc
          have hcf2 := List.mem_filter.mp hcf.1
          have hcall := List.all_eq_true.mp hall c hcf2.1
          simp only [Bool.or_eq_true, decide_eq_true_eq] at hcall
          rcases hcall with (ha | he) | he
          · exact ha
          · exact absurd (decide_eq_true he) (by simpa using hcf2.2)
          · exact absurd (decide_eq_true he) (by simpa using hcf.2)
  · intro s u h
    simp only [validate_username] at h
    split at h
    · exact Except.noConfusion h
    · split at h
      · injection h with h2
        rw [← h2]
      · exact Except.noConfusion h

/-- Witness for C4: the amended characterization applied to `"@@john"` —
the returned username has both leading `@` characters stripped. -/
theorem C4_validate_username_witness :
    ("john" : String).data = ("@@john" : String).data.dropWhile (fun c => c = '@') :=
  C4_validate_username.2.1 "@@john" "john" (by decide)

/- ## Tweet dictionary round trip -/

theorem strip_if_idem (x : String) :
    (if (if x = "" then x else pyStrip x) = "" then (if x = "" then x else pyStrip x)
     else pyStrip (if x = "" then x else pyStrip x)) = (if x = "" then x else pyStrip x) := by
  by_cases hx : x = ""
  · simp [hx]
  · rw [if_neg hx]
    by_cases hy : pyStrip x = ""
    · rw [if_pos hy]
    · rw [if_neg hy, pyStrip_idem]

/-- Claim C5: for every Post built through the dataclass constructor,
`Tweet.from_dict (p.to_dict)` reconstructs the content, the four
engagement counters and the three list-valued fields exactly (the lists
element for element in order); the only re-processing on the way back is
the `__post_init__` strip of the content, which is idempotent. -/
theorem C5_tweet_roundtrip (content username : String) (ts : PyDateTime)
    (likes retweets replies quotes : Int) (mentions hashtags : List String)
    (url method : String) (id language : Option String)
    (is_reply is_retweet : Bool) (media_urls : List String)
    (metadata : List (String × String)) (now : PyDateTime) :
    (Tweet.from_dict (Tweet.to_dict (mkTweet content username ts likes retweets replies
        quotes mentions hashtags url method id language is_reply is_retweet
        media_urls metadata)) now).content =
      (mkTweet content username ts likes retweets replies quotes mentions hashtags
        url method id language is_reply is_retweet media_urls metadata).content ∧
    (Tweet.from_dict (Tweet.to_dict (mkTweet content username ts likes retweets replies
        quotes mentions hashtags url method id language is_reply is_retweet
        media_urls metadata)) now).likes = likes ∧
    (Tweet.from_dict (Tweet.to_dict (mkTweet content username ts likes retweets replies
        quotes mentions hashtags url method id language is_reply is_retweet
        media_urls metadata)) now).retweets = retweets ∧
    (Tweet.from_dict (Tweet.to_dict (mkTweet content username ts likes retweets replies
        quotes mentions hashtags url method id language is_reply is_retweet
        media_urls metadata)) now).replies = replies ∧
    (Tweet.from_dict (Tweet.to_dict (mkTweet content username ts likes retweets replies
        quotes mentions hashtags url method id language is_reply is_retweet
        media_urls metadata)) now).quotes = quotes ∧
    (Tweet.from_dict (Tweet.to_dict (mkTweet content username ts likes retweets replies
        quotes mentions hashtags url method id language is_reply is_retweet
        media_urls metadata)) now).mentions = mentions ∧
    (Tweet.from_dict (Tweet.to_dict (mkTweet content username ts likes retweets replies
        quotes mentions hashtags url method id language is_reply is_retweet
        media_urls metadata)) now).hashtags = hashtags ∧
    (Tweet.from_dict (Tweet.to_dict (mkTweet content username ts likes retweets replies
        quotes mentions hashtags url method id language is_reply is_retweet
        media_urls metadata)) now).media_urls = media_urls := by
  refine ⟨?_, rfl, rfl, rfl, rfl, rfl, rfl, rfl⟩
  show (if (if content = "" then content else pyStrip content) = ""
        then (if content = "" then content else pyStrip content)
        else pyStrip (if content = "" then content else pyStrip content)) =
       (if content = "" then content else pyStrip content)
  exact strip_if_idem content

/- ## Retry with backoff -/

theorem retryGo_all_fail {E A : Type} (results : Nat → Except E A) (maxRetries : Nat)
    (u : Nat → ℚ) (es : Nat → E)
    (hall : ∀ i, i < maxRetries → results i = .error (es i)) :
    ∀ (r attempt : Nat) (last : Option E) (sleeps : List ℚ),
      attempt + (r + 1) = maxRetries →
      retryGo results maxRetries u (r + 1) attempt last sleeps =
        (.error (some (es (maxRetries - 1))),
         sleeps ++ (List.range' attempt (r + 1)).map fun i => 2 ^ i * u i) := by
  intro r
  induction r with
  | zero =>
    intro attempt last sleeps he
    have hlt : attempt < maxRetries := by omega
    simp only [retryGo, hall attempt hlt, if_pos hlt]
    have heq : maxRetries - 1 = attempt := by omega
    rw [heq]
    simp [List.range']
  | succ r ih =>
    intro attempt last sleeps he
    have hlt : attempt < maxRetries := by omega
    rw [retryGo, hall attempt hlt]
    simp only [if_pos hlt]
    rw [ih (attempt + 1) (some (es attempt)) (sleeps ++ [2 ^ attempt * u attempt]) (by omega)]
    rw [List.append_assoc, List.range'_succ attempt (r + 1) 1]
    simp

/-- Claim C6: when every attempt of the wrapped work fails, the
retry-with-backoff helper performs exactly `max_retries` attempts,
sleeps `2 ^ attempt * uniform(1, 2)` seconds after each failed attempt
(in particular between consecutive attempts), and finally re-raises the
last failure unchanged — the very exception value of the final attempt,
not a wrapper. -/
theorem C6_retry_backoff {E A : Type} (results : Nat → Except E A) (maxRetries : Nat)
    (u : Nat → ℚ) (es : Nat → E) (h0 : 0 < maxRetries)
    (hall : ∀ i, i < maxRetries → results i = .error (es i)) :
    retry_with_backoff results maxRetries u =
      (.error (some (es (maxRetries - 1))),
       (List.range maxRetries).map fun i => 2 ^ i * u i) := by
  obtain ⟨r, rfl⟩ : ∃ r, maxRetries = r + 1 := ⟨maxRetries - 1, by omega⟩
  unfold retry_with_backoff
  rw [retryGo_all_fail results (r + 1) u es hall r 0 none [] (by omega)]
  simp [List.range_eq_range']

/-- Witness for C6: three attempts that all fail with error code 7 end
in that error re-raised, after backoff sleeps for attempts 0, 1 and 2. -/
theorem C6_retry_backoff_witness :
    retry_with_backoff (fun _ => (Except.error 7 : Except Nat Nat)) 3 (fun _ => 1) =
      (.error (some 7), (List.range 3).map fun i => 2 ^ i * 1) :=
  C6_retry_backoff (fun _ => (Except.error 7 : Except Nat Nat)) 3 (fun _ => 1)
    (fun _ => 7) (by decide) (fun i _ => rfl)

/- ## Scraping loop -/

theorem innerScan_skip {maxT : Nat} {u : String} {now : PyDateTime}
    {tweets : List Tweet} {e : TweetElem} {es : List TweetElem}
    (h : extract_tweet_data e u now = none) :
    innerScan maxT u now tweets (e :: es) = innerScan maxT u now tweets es := by
  rw [innerScan, h]

theorem innerScan_accept {maxT : Nat} {u : String} {now : PyDateTime}
    {tweets : List Tweet} {e : TweetElem} {es : List TweetElem} {t : Tweet}
    (h : extract_tweet_data e u now = some t) (hlen : tweets.length + 1 < maxT) :
    innerScan maxT u now tweets (e :: es) = innerScan maxT u now (tweets ++ [t]) es := by
  rw [innerScan, h]
  simp only [List.length_append, List.length_cons, List.length_nil]
  rw [if_neg (by omega)]

theorem scrapeLoopGo_step (render : Nat → List TweetElem) (maxT : Nat)
    (u : String) (now : PyDateTime) (r sc : Nat) (tweets : List Tweet)
    (hlen : tweets.length < maxT)
    (hcont : (innerScan maxT u now tweets ((render sc).drop tweets.length)).length < maxT) :
    scrapeLoopGo render maxT u now (r + 1) sc tweets =
      scrapeLoopGo render maxT u now r (sc + 1)
        (innerScan maxT u now tweets ((render sc).drop tweets.length)) := by
  rw [scrapeLoopGo, if_pos hlen, if_pos hcont]

/-- Claim C7, counterexample: a rendering satisfying the scenario (two
passes, 4 new elements each, exactly 1 malformed per pass) on which the
loop accepts 7 records, not 6.  The inner loop slices from the number of
*accepted* tweets, so with the malformed element rendered first, the
second pass rescans an already-accepted element and duplicates it. -/
theorem C7_scrape_scenario_counter :
    (renderMalformedFirst 0).length = 4 ∧
    (renderMalformedFirst 0).countP
      (fun e => (extract_tweet_data e "user" sampleNow).isNone) = 1 ∧
    (renderMalformedFirst 1).take 4 = renderMalformedFirst 0 ∧
    (renderMalformedFirst 1).length = 8 ∧
    ((renderMalformedFirst 1).drop 4).countP
      (fun e => (extract_tweet_data e "user" sampleNow).isNone) = 1 ∧
    (scrape_user_tweets renderMalformedFirst 10 2 "user" sampleNow).1.length = 7 ∧
    (scrape_user_tweets renderMalformedFirst 10 2 "user" sampleNow).2 = 2 := by
  decide

/-- Claim C7, amended: in the scenario (max_count 10, max_scrolls 2, 4
new elements per pass with exactly 1 malformed per pass), *when each
pass renders its malformed element after the good ones*, the loop
terminates normally after 2 scrolls with exactly the 6 extracted
records and no error; each pass scans the rendered elements beyond the
previously *accepted* count. -/
theorem C7_scrape_scenario (g1 g2 g3 g4 g5 g6 b1 b2 : TweetElem)
    (t1 t2 t3 t4 t5 t6 : Tweet) (u : String) (now : PyDateTime)
    (render : Nat → List TweetElem)
    (h1 : extract_tweet_data g1 u now = some t1)
    (h2 : extract_tweet_data g2 u now = some t2)
    (h3 : extract_tweet_data g3 u now = some t3)
    (h4 : extract_tweet_data g4 u now = some t4)
    (h5 : extract_tweet_data g5 u now = some t5)
    (h6 : extract_tweet_data g6 u now = some t6)
    (hb1 : extract_tweet_data b1 u now = none)
    (hb2 : extract_tweet_data b2 u now = none)
    (hr0 : render 0 = [g1, g2, g3, b1])
    (hr1 : render 1 = [g1, g2, g3, b1, g4, g5, g6, b2]) :
    scrape_user_tweets render 10 2 u now = ([t1, t2, t3, t4, t5, t6], 2) := by
  have s1 : innerScan 10 u now [] ((render 0).drop ([] : List Tweet).length) =
      [t1, t2, t3] := by
    rw [hr0]
    simp only [List.length_nil, List.drop_zero]
    rw [innerScan_accept h1 (by simp), innerScan_accept h2 (by simp),
        innerScan_accept h3 (by simp), innerScan_skip hb1]
    simp [innerScan]
  have s2 : innerScan 10 u now [t1, t2, t3] ((render 1).drop [t1, t2, t3].length) =
      [t1, t2, t3, t4, t5, t6] := by
    rw [hr1]
    simp only [List.length_cons, List.length_nil]
    rw [show [g1, g2, g3, b1, g4, g5, g6, b2].drop (0 + 1 + 1 + 1) =
        [b1, g4, g5, g6, b2] from rfl]
    rw [innerScan_skip hb1, innerScan_accept h4 (by simp),
        innerScan_accept h5 (by simp), innerScan_accept h6 (by simp),
        innerScan_skip hb2]
    simp [innerScan]
  unfold scrape_user_tweets
  rw [show (2 : Nat) = 1 + 1 from rfl,
      scrapeLoopGo_step render 10 u now 1 0 [] (by simp) (by rw [s1]; simp),
      s1,
      show (1 : Nat) = 0 + 1 from rfl,
      scrapeLoopGo_step render 10 u now 0 (0 + 1) [t1, t2, t3] (by simp) (by rw [s2]; simp),
      s2]
  rfl

/-- Witness for C7: the amended scenario on concrete page states where
each pass renders three well-formed elements then the malformed one. -/
theorem C7_scrape_scenario_witness :
    scrape_user_tweets renderMalformedLast 10 2 "user" sampleNow =
      ([sampleTweet "aa", sampleTweet "bb", sampleTweet "cc",
        sampleTweet "dd", sampleTweet "ee", sampleTweet "ff"], 2) :=
  C7_scrape_scenario (goodElem "aa") (goodElem "bb") (goodElem "cc")
    (goodElem "dd") (goodElem "ee") (goodElem "ff") badElem badElem
    (sampleTweet "aa") (sampleTweet "bb") (sampleTweet "cc")
    (sampleTweet "dd") (sampleTweet "ee") (sampleTweet "ff")
    "user" sampleNow renderMalformedLast
    (by decide) (by decide) (by decide) (by decide) (by decide) (by decide)
    (by decide) (by decide) (by decide) (by decide)

/-- Claim C10: whatever the sequence of rendered page states and the
configuration, the tweet list `scrape_user_tweets` returns has length at
most `max_tweets` — the inner loop breaks at the cap and the returned
value is `tweets[:max_tweets]`. -/
theorem C10_scrape_cap (render : Nat → List TweetElem) (maxTweets maxScrolls : Nat)
    (u : String) (now : PyDateTime) :
    (scrape_user_tweets render maxTweets maxScrolls u now).1.length ≤ maxTweets := by
  unfold scrape_user_tweets
  simp only [List.length_take]
  exact Nat.min_le_left _ _

/- ## Timestamp fallback in extraction -/

/-- Claim C8, counterexample: a post element whose text container is
present but holds the empty string, and whose time sub-element is
missing, is rejected outright (`None`), not returned as a Post stamped
with the clock reading; the rejection is caused by the empty content,
not by the timestamp. -/
theorem C8_extract_counter :
    ((⟨some "", none, none, none, none, none⟩ : TweetElem).text ≠ none) ∧
    ((⟨some "", none, none, none, none, none⟩ : TweetElem).datetime = none) ∧
    extract_tweet_data ⟨some "", none, none, none, none, none⟩ "user" sampleNow =
      none :=
  ⟨by decide, rfl, rfl⟩

/-- Claim C8, amended: for every post element whose text container is
present with nonempty cleaned content, whose metric extraction raises
nothing, and whose time sub-element is missing or carries an
unparseable timestamp, extraction returns a Post whose timestamp is
exactly the extraction-moment clock reading; the element is never
rejected solely because of timestamp absence. -/
theorem C8_timestamp_fallback (e : TweetElem) (u raw : String) (now : PyDateTime)
    (m : Int × Int × Int × Int)
    (htext : e.text = some raw) (hcontent : clean_text raw ≠ "")
    (hm : extract_engagement_metrics e = .ok m)
    (hts : e.datetime = none ∨
      ∃ ts, e.datetime = some ts ∧ fromisoformatL (replaceZ ts.data) = none) :
    ∃ tw, extract_tweet_data e u now = some tw ∧ tw.timestamp = now := by
  obtain ⟨m1, m2, m3, m4⟩ := m
  rcases hts with hn | ⟨ts, hts1, hts2⟩
  · simp only [extract_tweet_data, htext, if_neg hcontent, hn, hm]
    exact ⟨_, rfl, rfl⟩
  · simp only [extract_tweet_data, htext, if_neg hcontent, hts1, hts2, hm]
    exact ⟨_, rfl, rfl⟩

/-- Witness for C8: a concrete element with text `"hello"` and no time
sub-element yields a Post stamped with the clock reading. -/
theorem C8_timestamp_fallback_witness :
    ∃ tw, extract_tweet_data (goodElem "hello") "user" sampleNow = some tw ∧
      tw.timestamp = sampleNow :=
  C8_timestamp_fallback (goodElem "hello") "user" "hello" sampleNow (0, 0, 0, 0)
    (by decide) (by decide) (by decide) (Or.inl (by decide))

/- ## Case-insensitive deduplication -/

theorem dedupCIGo_sublist : ∀ (xs seen : List (List Char)),
    List.Sublist (dedupCIGo seen xs) xs := by
  intro xs
  induction xs with
  | nil => intro seen; simp [dedupCIGo]
  | cons x xs ih =>
    intro seen
    by_cases hm : lowerL x ∈ seen
    · rw [dedupCIGo, if_pos hm]
      exact (ih seen).cons x
    · rw [dedupCIGo, if_neg hm]
      exact (ih _).cons₂ x

theorem dedupCIGo_pairwise : ∀ (xs seen : List (List Char)),
    (∀ y ∈ dedupCIGo seen xs, lowerL y ∉ seen) ∧
    (dedupCIGo seen xs).Pairwise (fun a b => lowerL a ≠ lowerL b) := by
  intro xs
  induction xs with
  | nil => intro seen; simp [dedupCIGo]
  | cons x xs ih =>
    intro seen
    by_cases hm : lowerL x ∈ seen
    · rw [dedupCIGo, if_pos hm]
      exact ih seen
    · rw [dedupCIGo, if_neg hm]
      obtain ⟨ihm, ihp⟩ := ih (lowerL x :: seen)
      constructor
      · intro y hy
        rcases List.mem_cons.mp hy with rfl | hy2
        · exact hm
        · intro hins
          exact ihm y hy2 (List.mem_cons_of_mem _ hins)
      · refine List.pairwise_cons.mpr ⟨?_, ihp⟩
        intro b hb he
        exact ihm b hb (he ▸ List.mem_cons_self _ _)

theorem dedupCIGo_covers : ∀ (xs seen : List (List Char)) (m : List Char), m ∈ xs →
    lowerL m ∈ seen ∨ ∃ r ∈ dedupCIGo seen xs, lowerL r = lowerL m := by
  intro xs
  induction xs with
  | nil => intro seen m hm; simp at hm
  | cons x xs ih =>
    intro seen m hm
    by_cases hx : lowerL x ∈ seen
    · rw [dedupCIGo, if_pos hx]
      rcases List.mem_cons.mp hm with rfl | hm2
      · exact Or.inl hx
      · exact ih seen m hm2
    · rw [dedupCIGo, if_neg hx]
      rcases List.mem_cons.mp hm with rfl | hm2
      · exact Or.inr ⟨m, List.mem_cons_self _ _, rfl⟩
      · rcases ih (lowerL x :: seen) m hm2 with h | ⟨r, hr1, hr2⟩
        · rcases List.mem_cons.mp h with he | hseen
          · exact Or.inr ⟨x, List.mem_cons_self _ _, he.symm⟩
          · exact Or.inl hseen
        · exact Or.inr ⟨r, List.mem_cons_of_mem _ hr1, hr2⟩

theorem dedup_mapped (toks : List (List Char)) :
    ((dedupCIGo [] toks).map (fun l => (⟨l⟩ : String))).Pairwise
      (fun a b => lowerS a ≠ lowerS b) ∧
    List.Sublist ((dedupCIGo [] toks).map (fun l => (⟨l⟩ : String)))
      (toks.map (fun l => (⟨l⟩ : String))) ∧
    ∀ m ∈ toks.map (fun l => (⟨l⟩ : String)),
      ∃ r ∈ (dedupCIGo [] toks).map (fun l => (⟨l⟩ : String)), lowerS r = lowerS m := by
  refine ⟨?_, ?_, ?_⟩
  · rw [List.pairwise_map]
    exact ((dedupCIGo_pairwise toks []).2).imp
      (fun {a b} h => fun he => h (by simpa [lowerS, String.ext_iff] using he))
  · exact (dedupCIGo_sublist toks []).map _
  · intro m hm
    rw [List.mem_map] at hm
    obtain ⟨ml, hml, rfl⟩ := hm
    rcases dedupCIGo_covers toks [] ml hml with h | ⟨r, hr1, hr2⟩
    · simp at h
    · exact ⟨⟨r⟩, List.mem_map.mpr ⟨r, hr1, rfl⟩,
        congrArg (fun l => (⟨l⟩ : String)) hr2⟩

theorem dedupCIGo_eq_keepFirstCI :
    ∀ (xs seen : List (List Char)),
      dedupCIGo seen xs = keepFirstCI (xs.filter (fun y => decide (lowerL y ∉ seen))) := by
  intro xs
  induction xs with
  | nil => intro seen; simp [dedupCIGo, keepFirstCI]
  | cons x xs ih =>
    intro seen
    by_cases hm : lowerL x ∈ seen
    · rw [dedupCIGo, if_pos hm]
      rw [List.filter_cons, if_neg (by simp [hm])]
      exact ih seen
    · rw [dedupCIGo, if_neg hm]
      rw [List.filter_cons, if_pos (by simp [hm]), keepFirstCI]
      congr 1
      rw [ih (lowerL x :: seen), List.filter_filter]
      congr 1
      apply List.filter_congr
      intro y _
      simp only [List.mem_cons, not_or, ← Bool.decide_and]

theorem dedupCIGo_keepFirst (xs : List (List Char)) :
    dedupCIGo [] xs = keepFirstCI xs := by
  rw [dedupCIGo_eq_keepFirstCI xs []]
  exact congrArg keepFirstCI (List.filter_eq_self.mpr fun a _ => by simp)

/-- Claim C9: `extract_mentions` and `extract_hashtags` each return
exactly the first occurrence — with its original casing, in first
occurrence order — of every case-insensitive class of raw regex
matches: the result equals `keepFirstCI` of the raw matches, the
function that keeps each lowercase class's first element and drops its
later duplicates; moreover the result is pairwise distinct under
case-insensitive comparison and a sublist of the raw matches. -/
theorem C9_extract_dedup (s : String) :
    (extract_mentions s =
        (keepFirstCI (findTokens '@' isMentionChar s.data)).map
          (fun l => (⟨l⟩ : String)) ∧
     (extract_mentions s).Pairwise (fun a b => lowerS a ≠ lowerS b) ∧
     List.Sublist (extract_mentions s) (rawMentions s)) ∧
    (extract_hashtags s =
        (keepFirstCI (findTokens '#' isWordChar s.data)).map
          (fun l => (⟨l⟩ : String)) ∧
     (extract_hashtags s).Pairwise (fun a b => lowerS a ≠ lowerS b) ∧
     List.Sublist (extract_hashtags s) (rawHashtags s)) := by
  by_cases he : s.data.isEmpty = true
  · have hdata : s.data = [] := by simpa [List.isEmpty_iff] using he
    simp [extract_mentions, extract_hashtags, rawMentions, rawHashtags,
      findTokens, hdata, findTokensGo, he, keepFirstCI]
  · unfold extract_mentions extract_hashtags rawMentions rawHashtags
    rw [if_neg he, if_neg he]
    exact ⟨⟨congrArg (List.map _) (dedupCIGo_keepFirst _), (dedup_mapped _).1,
            (dedup_mapped _).2.1⟩,
           ⟨congrArg (List.map _) (dedupCIGo_keepFirst _), (dedup_mapped _).1,
            (dedup_mapped _).2.1⟩⟩
